import Mathlib

/-!
Shallow embedding of `Weather/Project/location.py` (class `Location`).

Modelling conventions:
* Python floats are modelled as exact rationals (`ℚ`); decimal literals such
  as `48.85` become `mkRat 4885 100`.
* A pandas data frame is a list of row structures; the two coordinate columns
  hold a `CoordVal` that is either a raw textual form (`str` cells) or a
  numeric form (`float` cells), mirroring the runtime type dispatch
  `type(self.data['Latitude'].iloc[0]) == str`.
* Exceptions that propagate are modelled with `Except LoadErr`; the remote
  geocoding transport (`requests.get(...).json()`) is a parameter
  `remote : String → Except String GeoResponse` mapping the composite
  "City, Country" query to either a parsed JSON response or a raised
  transport/parsing exception (`Except.error`).
* The number of remote invocations is made observable: the resolver returns,
  next to the mapping, the list of composite keys on which `google_coords`
  was invoked (pure instrumentation, it does not influence the mapping).
-/

/-- A cell of the `Latitude`/`Longitude` column: raw textual form (Python
`str`) or already numeric (Python `float`). -/
inductive CoordVal : Type
  | text (s : String)
  | num (q : ℚ)
deriving DecidableEq, Repr

/-- Runtime-type test `type(cell) == str` on a coordinate cell. -/
def CoordVal.isText : CoordVal → Bool
  | .text _ => true
  | .num _ => false

/-- Errors that can propagate out of the loader / resolver:
`emptyData` models the `IndexError` of `.iloc[0]` on an empty frame,
`malformedCoordinate` the `ValueError` of `float(...)` on a bad magnitude
(including the `IndexError` of `x[-1]` on an empty string),
`typeMismatch` the `TypeError` of slicing a non-string cell, and
`missingKey` the `KeyError` of `cities_coord[x]` during write-back. -/
inductive LoadErr : Type
  | emptyData
  | malformedCoordinate
  | typeMismatch
  | missingKey
deriving DecidableEq, Repr

/-- Numeric value of a list of decimal digit characters, most significant
first (`"4085"` ↦ 4085). -/
def digitsVal (cs : List Char) : ℕ :=
  cs.foldl (fun n c => n * 10 + (c.toNat - 48)) 0

/-- All characters are decimal digits. -/
def allDigits (cs : List Char) : Bool :=
  cs.all (fun c => c.isDigit)

/-- Unsigned decimal parse: digits with at most one decimal point, at least
one digit overall (`"48.85"`, `"48."`, `".85"`, `"4885"`). Returns the exact
rational value. -/
def parseUnsigned (cs : List Char) : Option ℚ :=
  let intPart := cs.takeWhile (fun c => c ≠ '.')
  let rest := cs.dropWhile (fun c => c ≠ '.')
  match rest with
  | [] =>
    if allDigits intPart ∧ intPart ≠ [] then
      some (mkRat (digitsVal intPart) 1)
    else none
  | _ :: frac =>
    if allDigits intPart ∧ allDigits frac ∧ (intPart ≠ [] ∨ frac ≠ []) ∧
        frac.all (fun c => c ≠ '.') then
      some (mkRat (digitsVal (intPart ++ frac)) (10 ^ frac.length))
    else none

/-- Model of Python's builtin `float(s)` restricted to plain decimal
literals with an optional sign; `none` models the raised `ValueError`. -/
def pyFloat? (s : String) : Option ℚ :=
  match s.toList with
  | '-' :: cs => (parseUnsigned cs).map (fun q => -q)
  | '+' :: cs => parseUnsigned cs
  | cs => parseUnsigned cs

/-- `Location._coords`: `sign = 1 if x[-1] in ('N', 'E') else -1;
return sign * float(x[:-1])`. The sign multiplication is modelled by a
conditional negation; an unparsable magnitude (or empty input, where `x[-1]`
already raises) is a propagating error. -/
def Location.coords (x : String) : Except LoadErr ℚ :=
  match x.toList.getLast? with
  | none => .error .malformedCoordinate
  | some last =>
    match pyFloat? (String.mk x.toList.dropLast) with
    | some m => .ok (if last = 'N' ∨ last = 'E' then m else -m)
    | none => .error .malformedCoordinate

/-- `_coords` applied to a coordinate cell: on a numeric cell the slicing
`x[:-1]` raises `TypeError` (modelled as `typeMismatch`). -/
def Location.coordsVal : CoordVal → Except LoadErr ℚ
  | .text s => Location.coords s
  | .num _ => .error .typeMismatch

/-- One candidate of the geocoding JSON answer: the nested
`results[i]['geometry']['location']` object. -/
structure GeoLocation : Type where
  lat : ℚ
  lng : ℚ
deriving DecidableEq, Repr

/-- Parsed JSON body of the geocoding answer: a `status` string and the
`results` array. -/
structure GeoResponse : Type where
  status : String
  results : List GeoLocation
deriving DecidableEq, Repr

/-- `Location.google_coords` given the transport outcome for the queried
place: return the first result's pair when `status == 'OK'`; any other
status, any transport exception, and the `IndexError` of `results[0]` on an
empty result list are all absorbed by the `except` clause, yielding `None`. -/
def Location.googleCoords (resp : Except String GeoResponse) : Option (ℚ × ℚ) :=
  match resp with
  | .error _ => none
  | .ok r =>
    if r.status = "OK" then
      match r.results.head? with
      | some loc => some (loc.lat, loc.lng)
      | none => none
    else none

/-- One row of the CSV file as read by `pd.read_csv`: the columns used by
`Location` plus the tuple of all remaining original column values. -/
structure DataRow : Type where
  city : String
  country : String
  dt : String
  latitude : CoordVal
  longitude : CoordVal
  other : List String
deriving DecidableEq, Repr

/-- One row of `self.data` after `__init__` added the derived columns
`Year` and `City_Country`. -/
structure LocRow : Type where
  city : String
  country : String
  dt : String
  latitude : CoordVal
  longitude : CoordVal
  other : List String
  year : ℕ
  cityCountry : String
deriving DecidableEq, Repr

/-- Composite place key recomputed from the name columns, as in
`f'{city}, {country}'`. -/
def LocRow.key (r : LocRow) : String :=
  r.city ++ ", " ++ r.country

/-- Modelled from the spec: `pd.to_datetime(...).dt.year` on an ISO-dated
timestamp column — "normalizes temporal fields into year granularity"; the
year is the leading dash-free segment of the timestamp text. -/
def yearOf (dt : String) : ℕ :=
  digitsVal (dt.toList.takeWhile (fun c => c ≠ '-'))

/-- The derived-column assignments of `__init__`:
`data['Year'] = data['dt'].dt.year` and
`data['City_Country'] = data['City'] + ', ' + data['Country']`. -/
def addDerived (r : DataRow) : LocRow :=
  { city := r.city, country := r.country, dt := r.dt,
    latitude := r.latitude, longitude := r.longitude, other := r.other,
    year := yearOf r.dt, cityCountry := r.city ++ ", " ++ r.country }

/-- Reading back a written row: the columns `Year` and `City_Country` are
recomputed (overwritten) on every load, so only the original columns matter. -/
def LocRow.toData (r : LocRow) : DataRow :=
  { city := r.city, country := r.country, dt := r.dt,
    latitude := r.latitude, longitude := r.longitude, other := r.other }

/-- The projection `data[['City', 'Country', 'Latitude', 'Longitude']]`
of one row, the unit on which `drop_duplicates` operates. -/
structure CityTuple : Type where
  city : String
  country : String
  lat : CoordVal
  lng : CoordVal
deriving DecidableEq, Repr

/-- Project a data-frame row to its `(City, Country, Latitude, Longitude)`
tuple. -/
def tupleOf (r : LocRow) : CityTuple :=
  { city := r.city, country := r.country, lat := r.latitude, lng := r.longitude }

/-- Composite key of a projected tuple, `f'{city}, {country}'`. -/
def CityTuple.key (t : CityTuple) : String :=
  t.city ++ ", " ++ t.country

/-- First-occurrence deduplication with an accumulator of already seen
values (pandas `drop_duplicates` keeps the first occurrence, in order). -/
def dropDupFirstAux {α : Type} [DecidableEq α] (seen : List α) : List α → List α
  | [] => []
  | a :: l =>
    if a ∈ seen then dropDupFirstAux seen l
    else a :: dropDupFirstAux (a :: seen) l

/-- `drop_duplicates().reset_index(drop = True)`: keep the first occurrence
of every value, preserving order. -/
def dropDupFirst {α : Type} [DecidableEq α] (l : List α) : List α :=
  dropDupFirstAux [] l

/-- Lookup in the `cities_coord` dictionary, modelled as an association
list in insertion order. -/
def lookupKey (m : List (String × ℚ × ℚ)) (k : String) : Option (ℚ × ℚ) :=
  match m with
  | [] => none
  | p :: rest => if k = p.1 then some p.2 else lookupKey rest k

/-- Resolution of one distinct tuple, the loop body of `_get_coordinates`:
`coord = self.google_coords(cities.iloc[i])`, and when that is `None`, fall
back to `self.coordinates(cities.iloc[i])`, i.e. parse the latitude text then
the longitude text (either parse error propagates). -/
def resolveTuple (remote : String → Except String GeoResponse)
    (t : CityTuple) : Except LoadErr (ℚ × ℚ) :=
  match Location.googleCoords (remote t.key) with
  | some p => .ok p
  | none => do
    let la ← Location.coordsVal t.lat
    let lo ← Location.coordsVal t.lng
    pure (la, lo)

/-- The loop of `_get_coordinates` over the deduplicated tuples: build the
dictionary, skipping tuples whose composite key is already present, and
record every key on which the remote lookup is invoked. An uncaught fallback
parse error aborts the loop (and with it the whole pass). -/
def getCoordsAux (remote : String → Except String GeoResponse) :
    List CityTuple → List (String × ℚ × ℚ) → List String →
    Except LoadErr (List (String × ℚ × ℚ)) × List String
  | [], acc, calls => (.ok acc, calls)
  | t :: ts, acc, calls =>
    if (lookupKey acc t.key).isSome then getCoordsAux remote ts acc calls
    else
      match resolveTuple remote t with
      | .ok p => getCoordsAux remote ts (acc ++ [(t.key, p)]) (calls ++ [t.key])
      | .error e => (.error e, calls ++ [t.key])

/-- `Location._get_coordinates`: deduplicate the
`(City, Country, Latitude, Longitude)` projection keeping first occurrences,
then run the resolution loop. Returns the dictionary together with the list
of remote invocations. -/
def Location.getCoordinates (remote : String → Except String GeoResponse)
    (rows : List LocRow) :
    Except LoadErr (List (String × ℚ × ℚ)) × List String :=
  getCoordsAux remote (dropDupFirst (rows.map tupleOf)) [] []

/-- Write-back of one row: `cities_coord[x]` on the row's `City_Country`
value (a missing key is the `KeyError`, modelled as `missingKey`), storing
the numeric pair into the two coordinate columns. -/
def applyRow (m : List (String × ℚ × ℚ)) (r : LocRow) : Except LoadErr LocRow :=
  match lookupKey m r.cityCountry with
  | none => .error .missingKey
  | some (la, lo) =>
    .ok { r with latitude := .num la, longitude := .num lo }

/-- Elementwise application of a fallible function to a column, with the
first raised exception propagating (the `Series.map` calls of
`_update_file`; the two column maps are fused into one per-row update). -/
def mapExcept {α β : Type} (f : α → Except LoadErr β) :
    List α → Except LoadErr (List β)
  | [] => .ok []
  | a :: l => do
    let b ← f a
    let bs ← mapExcept f l
    pure (b :: bs)

/-- `Location._update_file` up to the storage write: build the dictionary,
then rewrite both coordinate columns of every row from it. The returned row
list is what `to_csv` then persists. -/
def Location.updateFile (remote : String → Except String GeoResponse)
    (rows : List LocRow) : Except LoadErr (List LocRow) := do
  let m ← (Location.getCoordinates remote rows).1
  mapExcept (applyRow m) rows

/-- Outcome of constructing a `Location`: the final in-memory data frame (or
the propagated exception) together with what was written to the backing CSV
file (`none` when no write occurred). -/
structure LoadResult : Type where
  result : Except LoadErr (List LocRow)
  written : Option (List LocRow)
deriving Repr

/-- `Location.__init__`: read the frame, add the derived columns, and when
the first row's `Latitude` cell is textual run `_update_file` (which ends in
`to_csv`); on an empty frame `.iloc[0]` raises. -/
def Location.load (remote : String → Except String GeoResponse)
    (data : List DataRow) : LoadResult :=
  let rows := data.map addDerived
  match data.head? with
  | none => { result := .error .emptyData, written := none }
  | some r0 =>
    if r0.latitude.isText then
      match Location.updateFile remote rows with
      | .ok rows2 => { result := .ok rows2, written := some rows2 }
      | .error e => { result := .error e, written := none }
    else { result := .ok rows, written := none }

/-- Observer for the `MissingKeyInvariant` fault: does a load outcome carry
the `KeyError` of the write-back lookup? -/
def isMissingKeyResult (lr : LoadResult) : Bool :=
  match lr.result with
  | .error .missingKey => true
  | _ => false

/-! A small concrete scenario (the spec's end-to-end example): three rows
over two places, a remote service that resolves Paris and fails for every
other query, and the expected resolved frame. -/

/-- Remote service: `"Paris, France"` resolves, every other query fails
transport-side. -/
def demoRemote : String → Except String GeoResponse := fun k =>
  if k = "Paris, France" then
    .ok { status := "OK",
          results := [{ lat := mkRat 488566 10000, lng := mkRat 23522 10000 }] }
  else .error "connection failed"

/-- Remote service that always fails (service unreachable). -/
def demoOffline : String → Except String GeoResponse := fun _ =>
  .error "offline"

/-- First Paris row of the demo dataset. -/
def demoParis1 : DataRow :=
  { city := "Paris", country := "France", dt := "2015-01-01",
    latitude := .text "48.85N", longitude := .text "2.35E", other := ["5.2"] }

/-- Second Paris row (same place, later timestamp). -/
def demoParis2 : DataRow :=
  { city := "Paris", country := "France", dt := "2015-02-01",
    latitude := .text "48.85N", longitude := .text "2.35E", other := ["7.3"] }

/-- Lyon row of the demo dataset. -/
def demoLyon : DataRow :=
  { city := "Lyon", country := "France", dt := "2015-01-01",
    latitude := .text "45.76N", longitude := .text "4.84E", other := ["6.1"] }

/-- The demo dataset: two rows for Paris, one for Lyon. -/
def demoData : List DataRow := [demoParis1, demoParis2, demoLyon]

/-- The resolved frame: both Paris rows carry the remote pair, Lyon the
parsed fallback pair. -/
def demoResolved : List LocRow :=
  [{ city := "Paris", country := "France", dt := "2015-01-01",
     latitude := .num (mkRat 488566 10000), longitude := .num (mkRat 23522 10000),
     other := ["5.2"], year := 2015, cityCountry := "Paris, France" },
   { city := "Paris", country := "France", dt := "2015-02-01",
     latitude := .num (mkRat 488566 10000), longitude := .num (mkRat 23522 10000),
     other := ["7.3"], year := 2015, cityCountry := "Paris, France" },
   { city := "Lyon", country := "France", dt := "2015-01-01",
     latitude := .num (mkRat 4576 100), longitude := .num (mkRat 484 100),
     other := ["6.1"], year := 2015, cityCountry := "Lyon, France" }]


/-! Decidability of equality on `Except`, used to evaluate concrete runs. -/

instance {ε α : Type} [DecidableEq ε] [DecidableEq α] : DecidableEq (Except ε α) := fun a b =>
  match a, b with
  | .ok x, .ok y =>
    match decEq x y with
    | isTrue h => isTrue (by rw [h])
    | isFalse h => isFalse (by intro hh; cases hh; exact h rfl)
  | .error x, .error y =>
    match decEq x y with
    | isTrue h => isTrue (by rw [h])
    | isFalse h => isFalse (by intro hh; cases hh; exact h rfl)
  | .ok _, .error _ => isFalse (by intro hh; cases hh)
  | .error _, .ok _ => isFalse (by intro hh; cases hh)

/-! Lemmas about dictionary lookup. -/

theorem lookupKey_append_some {m1 m2 : List (String × ℚ × ℚ)} {k : String}
    {p : ℚ × ℚ} (h : lookupKey m1 k = some p) :
    lookupKey (m1 ++ m2) k = some p := by
  induction m1 with
  | nil => simp [lookupKey] at h
  | cons q rest ih =>
    simp only [lookupKey, List.cons_append] at h ⊢
    by_cases hk : k = q.1
    · simpa [hk] using h
    · simp [hk] at h ⊢
      exact ih h

theorem lookupKey_append_none {m1 : List (String × ℚ × ℚ)} {k : String}
    (h : lookupKey m1 k = none) (m2 : List (String × ℚ × ℚ)) :
    lookupKey (m1 ++ m2) k = lookupKey m2 k := by
  induction m1 with
  | nil => simp [lookupKey]
  | cons q rest ih =>
    simp only [lookupKey, List.cons_append] at h ⊢
    by_cases hk : k = q.1
    · simp [hk] at h
    · simp [hk] at h ⊢
      exact ih h

theorem lookupKey_singleton (k : String) (p : ℚ × ℚ) :
    lookupKey [(k, p)] k = some p := by
  simp [lookupKey]

/-! Lemmas about first-occurrence deduplication. -/

theorem mem_dropDupFirstAux {α : Type} [DecidableEq α] :
    ∀ (l seen : List α) (x : α),
      x ∈ dropDupFirstAux seen l ↔ x ∈ l ∧ x ∉ seen := by
  intro l
  induction l with
  | nil => intro seen x; simp [dropDupFirstAux]
  | cons a rest ih =>
    intro seen x
    simp only [dropDupFirstAux]
    by_cases ha : a ∈ seen
    · simp only [ha, if_true, ih, List.mem_cons]
      constructor
      · rintro ⟨hx, hns⟩; exact ⟨Or.inr hx, hns⟩
      · rintro ⟨hx | hx, hns⟩
        · exact absurd (hx ▸ ha) hns
        · exact ⟨hx, hns⟩
    · simp only [ha, if_false, List.mem_cons, ih, List.mem_cons]
      constructor
      · rintro (rfl | ⟨hx, hns⟩)
        · exact ⟨Or.inl rfl, ha⟩
        · exact ⟨Or.inr hx, fun hs => hns (Or.inr hs)⟩
      · rintro ⟨rfl | hx, hns⟩
        · exact Or.inl rfl
        · by_cases hxa : x = a
          · exact Or.inl hxa
          · exact Or.inr ⟨hx, fun hs => by
              rcases hs with h | h
              · exact hxa h
              · exact hns h⟩

theorem mem_dropDupFirst {α : Type} [DecidableEq α] {l : List α} {x : α} :
    x ∈ dropDupFirst l ↔ x ∈ l := by
  simp [dropDupFirst, mem_dropDupFirstAux]

theorem find?_dropDupFirstAux {α : Type} [DecidableEq α] (p : α → Bool) :
    ∀ (l seen : List α), (∀ a ∈ seen, p a = false) →
      (dropDupFirstAux seen l).find? p = l.find? p := by
  intro l
  induction l with
  | nil => intro seen _; simp [dropDupFirstAux]
  | cons a rest ih =>
    intro seen hseen
    simp only [dropDupFirstAux]
    by_cases ha : a ∈ seen
    · have hpa : p a = false := hseen a ha
      simp only [ha, if_true, List.find?, hpa]
      exact ih seen hseen
    · simp only [ha, if_false, List.find?]
      cases hpa : p a with
      | true => rfl
      | false =>
        exact ih (a :: seen) (by
          intro b hb
          rcases List.mem_cons.mp hb with rfl | hb
          · exact hpa
          · exact hseen b hb)

theorem find?_dropDupFirst {α : Type} [DecidableEq α] (p : α → Bool) (l : List α) :
    (dropDupFirst l).find? p = l.find? p :=
  find?_dropDupFirstAux p l [] (by intro a h; cases h)

/-! Lemmas about the resolution loop. -/

theorem getCoordsAux_acc_prefix (remote : String → Except String GeoResponse) :
    ∀ (ts : List CityTuple) (acc : List (String × ℚ × ℚ)) (calls : List String)
      (m : List (String × ℚ × ℚ)),
      (getCoordsAux remote ts acc calls).1 = .ok m → ∃ ext, m = acc ++ ext := by
  intro ts
  induction ts with
  | nil =>
    intro acc calls m h
    simp only [getCoordsAux] at h
    cases h
    exact ⟨[], by simp⟩
  | cons t rest ih =>
    intro acc calls m h
    simp only [getCoordsAux] at h
    by_cases hs : (lookupKey acc t.key).isSome
    · rw [if_pos hs] at h
      exact ih acc calls m h
    · rw [if_neg hs] at h
      cases hr : resolveTuple remote t with
      | ok p =>
        rw [hr] at h
        rcases ih (acc ++ [(t.key, p)]) (calls ++ [t.key]) m h with ⟨ext, hext⟩
        exact ⟨(t.key, p) :: ext, by simpa using hext⟩
      | error e => rw [hr] at h; cases h

theorem getCoordsAux_preserve (remote : String → Except String GeoResponse)
    {ts : List CityTuple} {acc : List (String × ℚ × ℚ)} {calls : List String}
    {m : List (String × ℚ × ℚ)} {k : String} {p : ℚ × ℚ}
    (h : (getCoordsAux remote ts acc calls).1 = .ok m)
    (hk : lookupKey acc k = some p) : lookupKey m k = some p := by
  rcases getCoordsAux_acc_prefix remote ts acc calls m h with ⟨ext, rfl⟩
  exact lookupKey_append_some hk

theorem getCoordsAux_complete (remote : String → Except String GeoResponse) :
    ∀ (ts : List CityTuple) (acc : List (String × ℚ × ℚ)) (calls : List String)
      (m : List (String × ℚ × ℚ)),
      (getCoordsAux remote ts acc calls).1 = .ok m →
      ∀ t ∈ ts, (lookupKey m t.key).isSome := by
  intro ts
  induction ts with
  | nil => intro acc calls m _ t ht; cases ht
  | cons u rest ih =>
    intro acc calls m h t ht
    simp only [getCoordsAux] at h
    by_cases hs : (lookupKey acc u.key).isSome
    · rw [if_pos hs] at h
      rcases List.mem_cons.mp ht with rfl | ht2
      · rcases Option.isSome_iff_exists.mp hs with ⟨p, hp⟩
        rw [getCoordsAux_preserve remote h hp]
        rfl
      · exact ih acc calls m h t ht2
    · rw [if_neg hs] at h
      cases hr : resolveTuple remote u with
      | ok p =>
        rw [hr] at h
        rcases List.mem_cons.mp ht with rfl | ht2
        · have hnone : lookupKey acc t.key = none :=
            Option.not_isSome_iff_eq_none.mp hs
          have hacc2 : lookupKey (acc ++ [(t.key, p)]) t.key = some p := by
            rw [lookupKey_append_none hnone]
            exact lookupKey_singleton t.key p
          rw [getCoordsAux_preserve remote h hacc2]
          rfl
        · exact ih (acc ++ [(u.key, p)]) (calls ++ [u.key]) m h t ht2
      | error e => rw [hr] at h; cases h

theorem getCoordsAux_find (remote : String → Except String GeoResponse) :
    ∀ (ts : List CityTuple) (acc : List (String × ℚ × ℚ)) (calls : List String)
      (m : List (String × ℚ × ℚ)) (k : String) (t : CityTuple),
      (getCoordsAux remote ts acc calls).1 = .ok m →
      lookupKey acc k = none →
      ts.find? (fun u => u.key == k) = some t →
      ∃ p, resolveTuple remote t = .ok p ∧ lookupKey m k = some p := by
  intro ts
  induction ts with
  | nil => intro acc calls m k t _ _ hf; simp [List.find?] at hf
  | cons u rest ih =>
    intro acc calls m k t h hk hf
    simp only [getCoordsAux] at h
    rw [List.find?] at hf
    cases hbeq : (u.key == k) with
    | true =>
      rw [hbeq] at hf
      cases hf
      have hkey : u.key = k := eq_of_beq hbeq
      by_cases hs : (lookupKey acc u.key).isSome
      · rw [hkey, hk] at hs
        cases hs
      · rw [if_neg hs] at h
        cases hr : resolveTuple remote u with
        | ok p =>
          rw [hr] at h
          refine ⟨p, rfl, ?_⟩
          have hacc2 : lookupKey (acc ++ [(u.key, p)]) k = some p := by
            rw [hkey, lookupKey_append_none hk]
            exact lookupKey_singleton k p
          exact getCoordsAux_preserve remote h hacc2
        | error e => rw [hr] at h; cases h
    | false =>
      rw [hbeq] at hf
      have hne : u.key ≠ k := by
        intro he
        rw [he] at hbeq
        simp at hbeq
      by_cases hs : (lookupKey acc u.key).isSome
      · rw [if_pos hs] at h
        exact ih acc calls m k t h hk hf
      · rw [if_neg hs] at h
        cases hr : resolveTuple remote u with
        | ok p =>
          rw [hr] at h
          have hk2 : lookupKey (acc ++ [(u.key, p)]) k = none := by
            rw [lookupKey_append_none hk]
            simp only [lookupKey]
            rw [if_neg (fun hh => hne hh.symm)]
          exact ih (acc ++ [(u.key, p)]) (calls ++ [u.key]) m k t h hk2 hf
        | error e => rw [hr] at h; cases h

theorem getCoordsAux_calls_nodup (remote : String → Except String GeoResponse) :
    ∀ (ts : List CityTuple) (acc : List (String × ℚ × ℚ)) (calls : List String),
      calls.Nodup → (∀ x ∈ calls, (lookupKey acc x).isSome) →
      ((getCoordsAux remote ts acc calls).2).Nodup := by
  intro ts
  induction ts with
  | nil => intro acc calls hnd _; exact hnd
  | cons t rest ih =>
    intro acc calls hnd hinv
    simp only [getCoordsAux]
    by_cases hs : (lookupKey acc t.key).isSome
    · rw [if_pos hs]
      exact ih acc calls hnd hinv
    · rw [if_neg hs]
      have hkey : t.key ∉ calls := fun hmem => hs (hinv t.key hmem)
      have hnd2 : (calls ++ [t.key]).Nodup := by
        simp [List.nodup_append, hnd, List.disjoint_singleton, hkey]
      cases hr : resolveTuple remote t with
      | ok p =>
        refine ih (acc ++ [(t.key, p)]) (calls ++ [t.key]) hnd2 ?_
        intro x hx
        rcases List.mem_append.mp hx with hx | hx
        · rcases Option.isSome_iff_exists.mp (hinv x hx) with ⟨q, hq⟩
          rw [lookupKey_append_some hq]
          rfl
        · rcases List.mem_singleton.mp hx with rfl
          rw [lookupKey_append_none (Option.not_isSome_iff_eq_none.mp hs),
            lookupKey_singleton]
          rfl
      | error e => exact hnd2

theorem getCoordsAux_calls_subset (remote : String → Except String GeoResponse) :
    ∀ (ts : List CityTuple) (acc : List (String × ℚ × ℚ)) (calls : List String),
      (getCoordsAux remote ts acc calls).2 ⊆ calls ++ ts.map CityTuple.key := by
  intro ts
  induction ts with
  | nil => intro acc calls; simp [getCoordsAux]
  | cons t rest ih =>
    intro acc calls
    simp only [getCoordsAux, List.map_cons]
    by_cases hs : (lookupKey acc t.key).isSome
    · rw [if_pos hs]
      refine List.Subset.trans (ih acc calls) ?_
      intro x hx
      rcases List.mem_append.mp hx with hx | hx
      · exact List.mem_append.mpr (Or.inl hx)
      · exact List.mem_append.mpr (Or.inr (List.mem_cons.mpr (Or.inr hx)))
    · rw [if_neg hs]
      have hre : calls ++ [t.key] ++ rest.map CityTuple.key =
          calls ++ (t.key :: rest.map CityTuple.key) := by
        simp
      cases hr : resolveTuple remote t with
      | ok p =>
        refine List.Subset.trans (ih (acc ++ [(t.key, p)]) (calls ++ [t.key])) ?_
        rw [hre]
        exact List.Subset.refl _
      | error e =>
        intro x hx
        rcases List.mem_append.mp hx with hx | hx
        · exact List.mem_append.mpr (Or.inl hx)
        · rcases List.mem_singleton.mp hx with rfl
          exact List.mem_append.mpr (Or.inr (List.mem_cons.mpr (Or.inl rfl)))

theorem coords_error_shape (s : String) (e : LoadErr)
    (h : Location.coords s = .error e) : e = .malformedCoordinate := by
  unfold Location.coords at h
  cases hlast : s.toList.getLast? with
  | none => rw [hlast] at h; cases h; rfl
  | some c =>
    rw [hlast] at h
    cases hpf : pyFloat? (String.mk s.toList.dropLast) with
    | some m => rw [hpf] at h; cases h
    | none => rw [hpf] at h; cases h; rfl

theorem coordsVal_error_shape (v : CoordVal) (e : LoadErr)
    (h : Location.coordsVal v = .error e) :
    e = .malformedCoordinate ∨ e = .typeMismatch := by
  cases v with
  | text s => exact Or.inl (coords_error_shape s e h)
  | num q => simp only [Location.coordsVal] at h; cases h; exact Or.inr rfl

theorem resolveTuple_error_shape (remote : String → Except String GeoResponse)
    (t : CityTuple) (e : LoadErr) (h : resolveTuple remote t = .error e) :
    e = .malformedCoordinate ∨ e = .typeMismatch := by
  unfold resolveTuple at h
  cases hg : Location.googleCoords (remote t.key) with
  | some p => rw [hg] at h; cases h
  | none =>
    rw [hg] at h
    cases hla : Location.coordsVal t.lat with
    | error e2 =>
      rw [hla] at h
      simp only [Bind.bind, Except.bind] at h
      cases h
      exact coordsVal_error_shape t.lat e hla
    | ok la =>
      rw [hla] at h
      simp only [Bind.bind, Except.bind] at h
      cases hlo : Location.coordsVal t.lng with
      | error e3 =>
        rw [hlo] at h
        simp only [Bind.bind, Except.bind] at h
        cases h
        exact coordsVal_error_shape t.lng e hlo
      | ok lo => rw [hlo] at h; cases h

theorem getCoordsAux_error_shape (remote : String → Except String GeoResponse) :
    ∀ (ts : List CityTuple) (acc : List (String × ℚ × ℚ)) (calls : List String)
      (e : LoadErr), (getCoordsAux remote ts acc calls).1 = .error e →
      e = .malformedCoordinate ∨ e = .typeMismatch := by
  intro ts
  induction ts with
  | nil => intro acc calls e h; simp [getCoordsAux] at h
  | cons t rest ih =>
    intro acc calls e h
    simp only [getCoordsAux] at h
    by_cases hs : (lookupKey acc t.key).isSome
    · rw [if_pos hs] at h
      exact ih acc calls e h
    · rw [if_neg hs] at h
      cases hr : resolveTuple remote t with
      | ok p =>
        rw [hr] at h
        exact ih (acc ++ [(t.key, p)]) (calls ++ [t.key]) e h
      | error e2 =>
        rw [hr] at h
        cases h
        exact resolveTuple_error_shape remote t e hr

/-! Lemmas about the column rewrite. -/

theorem mapExcept_ok_forall2 {α β : Type} {f : α → Except LoadErr β} :
    ∀ {l : List α} {l2 : List β}, mapExcept f l = .ok l2 →
      List.Forall₂ (fun a b => f a = .ok b) l l2 := by
  intro l
  induction l with
  | nil =>
    intro l2 h
    simp only [mapExcept] at h
    cases h
    exact List.Forall₂.nil
  | cons a rest ih =>
    intro l2 h
    simp only [mapExcept] at h
    cases hfa : f a with
    | error e => rw [hfa] at h; simp only [Bind.bind, Except.bind] at h; cases h
    | ok b =>
      rw [hfa] at h
      simp only [Bind.bind, Except.bind] at h
      cases hrest : mapExcept f rest with
      | error e => rw [hrest] at h; cases h
      | ok bs =>
        rw [hrest] at h
        cases h
        exact List.Forall₂.cons hfa (ih hrest)

theorem mapExcept_ok_of_forall {α β : Type} {f : α → Except LoadErr β} :
    ∀ {l : List α}, (∀ a ∈ l, ∃ b, f a = .ok b) →
      ∃ l2, mapExcept f l = .ok l2 := by
  intro l
  induction l with
  | nil => intro _; exact ⟨[], rfl⟩
  | cons a rest ih =>
    intro h
    rcases h a (List.mem_cons_self a rest) with ⟨b, hb⟩
    rcases ih (fun x hx => h x (List.mem_cons_of_mem a hx)) with ⟨bs, hbs⟩
    refine ⟨b :: bs, ?_⟩
    simp only [mapExcept, hb, hbs, Bind.bind, Except.bind]
    rfl

theorem forall2_mem_right {α β : Type} {R : α → β → Prop} :
    ∀ {l : List α} {l2 : List β}, List.Forall₂ R l l2 →
      ∀ b ∈ l2, ∃ a, a ∈ l ∧ R a b := by
  intro l l2 h
  induction h with
  | nil => intro b hb; cases hb
  | cons hr _ ih =>
    intro b hb
    rcases List.mem_cons.mp hb with rfl | hb2
    · exact ⟨_, List.mem_cons_self _ _, hr⟩
    · rcases ih b hb2 with ⟨a, ha, har⟩
      exact ⟨a, List.mem_cons_of_mem _ ha, har⟩

theorem applyRow_ok {m : List (String × ℚ × ℚ)} {r r2 : LocRow}
    (h : applyRow m r = .ok r2) :
    r2.city = r.city ∧ r2.country = r.country ∧ r2.dt = r.dt ∧
    r2.other = r.other ∧ r2.year = r.year ∧ r2.cityCountry = r.cityCountry ∧
    ∃ la lo, lookupKey m r.cityCountry = some (la, lo) ∧
      r2.latitude = .num la ∧ r2.longitude = .num lo := by
  unfold applyRow at h
  cases hl : lookupKey m r.cityCountry with
  | none => rw [hl] at h; cases h
  | some p =>
    rw [hl] at h
    cases h
    exact ⟨rfl, rfl, rfl, rfl, rfl, rfl, p.1, p.2, by simp [hl], rfl, rfl⟩

theorem updateFile_ok_parts {remote : String → Except String GeoResponse}
    {rows rows2 : List LocRow}
    (h : Location.updateFile remote rows = .ok rows2) :
    ∃ m, (Location.getCoordinates remote rows).1 = .ok m ∧
      mapExcept (applyRow m) rows = .ok rows2 := by
  unfold Location.updateFile at h
  cases hm : (Location.getCoordinates remote rows).1 with
  | error e => rw [hm] at h; simp only [Bind.bind, Except.bind] at h; cases h
  | ok m =>
    rw [hm] at h
    simp only [Bind.bind, Except.bind] at h
    exact ⟨m, rfl, h⟩

/-! Behaviour of the raw coordinate parser on hemisphere-suffixed strings. -/

theorem coords_concat (cs : List Char) (c : Char) (m : ℚ)
    (h : pyFloat? (String.mk cs) = some m) :
    Location.coords (String.mk (cs ++ [c])) =
      .ok (if c = 'N' ∨ c = 'E' then m else -m) := by
  unfold Location.coords
  have h1 : (String.mk (cs ++ [c])).toList = cs ++ [c] := rfl
  rw [h1, List.getLast?_concat, List.dropLast_concat, h]

/-- C1: for every raw coordinate string `"<magnitude>H"` whose magnitude
parses as a decimal number, `_coords` returns `+magnitude` for `N`/`E` and
`-magnitude` for `S`/`W`; in particular `"40.7128N"` parses to `40.7128`,
`"74.0060W"` to `-74.0060`, and `"0N"` to `0.0`. -/
theorem coords_hemisphere_sign (cs : List Char) (m : ℚ)
    (h : pyFloat? (String.mk cs) = some m) :
    Location.coords (String.mk (cs ++ ['N'])) = .ok m ∧
    Location.coords (String.mk (cs ++ ['E'])) = .ok m ∧
    Location.coords (String.mk (cs ++ ['S'])) = .ok (-m) ∧
    Location.coords (String.mk (cs ++ ['W'])) = .ok (-m) ∧
    Location.coords "40.7128N" = .ok (mkRat 407128 10000) ∧
    Location.coords "74.0060W" = .ok (-(mkRat 740060 10000)) ∧
    Location.coords "0N" = .ok 0 := by
  refine ⟨?_, ?_, ?_, ?_, by decide, by decide, by decide⟩
  · rw [coords_concat cs 'N' m h]; simp
  · rw [coords_concat cs 'E' m h]; simp
  · rw [coords_concat cs 'S' m h]; simp
  · rw [coords_concat cs 'W' m h]; simp

theorem coords_hemisphere_sign_witness :
    Location.coords (String.mk (['4', '0', '.', '7', '1', '2', '8'] ++ ['N'])) =
      .ok (mkRat 407128 10000) :=
  (coords_hemisphere_sign ['4', '0', '.', '7', '1', '2', '8']
    (mkRat 407128 10000) (by decide)).1

/-- C10: for every nonempty input whose final character is neither `N` nor
`E`, `_coords` strips the final character and negates the prefix's numeric
value — no rejection of unrecognized hemisphere letters — so a plain numeric
string such as `"48.85"` silently yields the wrong value `-48.8`. -/
theorem coords_unrecognized_hemisphere (cs : List Char) (c : Char) (m : ℚ)
    (hN : c ≠ 'N') (hE : c ≠ 'E')
    (h : pyFloat? (String.mk cs) = some m) :
    Location.coords (String.mk (cs ++ [c])) = .ok (-m) ∧
    Location.coords "48.85" = .ok (-(mkRat 488 10)) := by
  refine ⟨?_, by decide⟩
  rw [coords_concat cs c m h]
  simp [hN, hE]

theorem coords_unrecognized_hemisphere_witness :
    Location.coords (String.mk (['4', '8', '.', '8'] ++ ['5'])) =
      .ok (-(mkRat 488 10)) :=
  (coords_unrecognized_hemisphere ['4', '8', '.', '8'] '5' (mkRat 488 10)
    (by decide) (by decide) (by decide)).1

/-- C5: `google_coords` returns a coordinate pair exactly when the response
arrived (no transport/parsing exception), its status is `"OK"`, and a first
result exists, in which case the pair is that result's latitude/longitude;
every other case (non-`OK` status, transport error, or the caught
`IndexError` on an empty result list) yields the failure signal `none`
without raising. -/
theorem googleCoords_status_ok (resp : Except String GeoResponse) (p : ℚ × ℚ) :
    Location.googleCoords resp = some p ↔
      ∃ r loc, resp = .ok r ∧ r.status = "OK" ∧ r.results.head? = some loc ∧
        p = (loc.lat, loc.lng) := by
  cases resp with
  | error e => simp [Location.googleCoords]
  | ok r =>
    by_cases hst : r.status = "OK"
    · cases hh : r.results.head? with
      | none => simp [Location.googleCoords, hst, hh]
      | some loc =>
        simp only [Location.googleCoords, hst, if_true, hh]
        constructor
        · intro hp
          cases hp
          exact ⟨r, loc, rfl, hst, hh, rfl⟩
        · rintro ⟨r2, loc2, hr2, _, hh2, rfl⟩
          cases hr2
          rw [hh] at hh2
          cases hh2
          rfl
    · simp [Location.googleCoords, hst]

/-- C2: during one resolution pass the remote lookup is invoked at most once
per distinct composite place key — the invocation list has no duplicates and
its length is bounded by the number of distinct composite keys among the
rows, regardless of the number of rows. -/
theorem getCoordinates_dedup_calls (remote : String → Except String GeoResponse)
    (rows : List LocRow) :
    ((Location.getCoordinates remote rows).2).Nodup ∧
    ((Location.getCoordinates remote rows).2).length ≤
      (dropDupFirst (rows.map LocRow.key)).length := by
  have hnd : ((Location.getCoordinates remote rows).2).Nodup :=
    getCoordsAux_calls_nodup remote _ [] [] List.nodup_nil
      (by intro x hx; cases hx)
  refine ⟨hnd, ?_⟩
  have hsub : (Location.getCoordinates remote rows).2 ⊆
      [] ++ (dropDupFirst (rows.map tupleOf)).map CityTuple.key :=
    getCoordsAux_calls_subset remote _ [] []
  have hsub2 : (Location.getCoordinates remote rows).2 ⊆
      dropDupFirst (rows.map LocRow.key) := by
    intro x hx
    have hx2 := hsub hx
    rw [List.nil_append] at hx2
    rcases List.mem_map.mp hx2 with ⟨t, ht, rfl⟩
    have ht2 : t ∈ rows.map tupleOf := mem_dropDupFirst.mp ht
    rcases List.mem_map.mp ht2 with ⟨r, hr, rfl⟩
    exact mem_dropDupFirst.mpr (List.mem_map.mpr ⟨r, hr, rfl⟩)
  exact (hnd.subperm hsub2).length_le

/-- C4: the loader runs the resolution-and-rewrite step exactly when the
coordinate field of the first record is textual: on a numeric first record
it returns the derived frame untouched with no storage write; on a textual
first record it runs `_update_file`, rewriting storage in full on success
and writing nothing when the pass aborts. -/
theorem load_detection_rule (remote : String → Except String GeoResponse)
    (data : List DataRow) (r0 : DataRow) (h0 : data.head? = some r0) :
    (r0.latitude.isText = false →
      Location.load remote data =
        { result := .ok (data.map addDerived), written := none }) ∧
    (r0.latitude.isText = true →
      (∀ rows2, Location.updateFile remote (data.map addDerived) = .ok rows2 →
        Location.load remote data =
          { result := .ok rows2, written := some rows2 }) ∧
      (∀ e, Location.updateFile remote (data.map addDerived) = .error e →
        Location.load remote data =
          { result := .error e, written := none })) := by
  constructor
  · intro hf
    simp only [Location.load, h0, hf]
    rfl
  · intro ht
    constructor
    · intro rows2 hup
      simp only [Location.load, h0, ht, if_true, hup]
    · intro e hup
      simp only [Location.load, h0, ht, if_true, hup]

theorem load_detection_rule_witness :
    Location.load demoRemote demoData =
      { result := .ok demoResolved, written := some demoResolved } :=
  ((load_detection_rule demoRemote demoData demoParis1 (by decide)).2
    (by decide)).1 demoResolved (by decide)

/-- C6: the storage write happens only after the complete mapping has been
built and applied to every record; whenever the pass aborts with an error,
nothing is written. -/
theorem load_write_atomicity (remote : String → Except String GeoResponse)
    (data : List DataRow) :
    (∀ e, (Location.load remote data).result = .error e →
      (Location.load remote data).written = none) ∧
    (∀ w, (Location.load remote data).written = some w →
      (Location.load remote data).result = .ok w ∧
      ∃ m, (Location.getCoordinates remote (data.map addDerived)).1 = .ok m ∧
        mapExcept (applyRow m) (data.map addDerived) = .ok w) := by
  cases hd : data.head? with
  | none =>
    have hl : Location.load remote data =
        { result := .error .emptyData, written := none } := by
      simp only [Location.load, hd]
    rw [hl]
    exact ⟨(fun e _ => rfl), (fun w hw => nomatch hw)⟩
  | some r0 =>
    cases ht : r0.latitude.isText with
    | false =>
      have hl : Location.load remote data =
          { result := .ok (data.map addDerived), written := none } := by
        simp only [Location.load, hd, ht]
        rfl
      rw [hl]
      exact ⟨(fun e he => nomatch he), (fun w hw => nomatch hw)⟩
    | true =>
      cases hup : Location.updateFile remote (data.map addDerived) with
      | ok rows2 =>
        have hl : Location.load remote data =
            { result := .ok rows2, written := some rows2 } := by
          simp only [Location.load, hd, ht, if_true, hup]
        rw [hl]
        refine ⟨(fun e he => nomatch he), fun w hw => ?_⟩
        cases hw
        exact ⟨rfl, updateFile_ok_parts hup⟩
      | error e2 =>
        have hl : Location.load remote data =
            { result := .error e2, written := none } := by
          simp only [Location.load, hd, ht, if_true, hup]
        rw [hl]
        exact ⟨(fun e _ => rfl), (fun w hw => nomatch hw)⟩

theorem updateFile_error_shape {remote : String → Except String GeoResponse}
    {rows : List LocRow} {e : LoadErr}
    (hkc : ∀ r ∈ rows, r.cityCountry = LocRow.key r)
    (h : Location.updateFile remote rows = .error e) :
    e = .malformedCoordinate ∨ e = .typeMismatch := by
  unfold Location.updateFile at h
  cases hm : (Location.getCoordinates remote rows).1 with
  | error e2 =>
    rw [hm] at h
    simp only [Bind.bind, Except.bind] at h
    cases h
    exact getCoordsAux_error_shape remote _ [] [] e hm
  | ok m =>
    rw [hm] at h
    simp only [Bind.bind, Except.bind] at h
    have hforall : ∀ r ∈ rows, ∃ b, applyRow m r = .ok b := by
      intro r hr
      have hmem : tupleOf r ∈ dropDupFirst (rows.map tupleOf) :=
        mem_dropDupFirst.mpr (List.mem_map.mpr ⟨r, hr, rfl⟩)
      have hsome := getCoordsAux_complete remote _ [] [] m hm (tupleOf r) hmem
      rcases Option.isSome_iff_exists.mp hsome with ⟨p, hp⟩
      obtain ⟨la, lo⟩ := p
      refine ⟨{ r with latitude := .num la, longitude := .num lo }, ?_⟩
      unfold applyRow
      have hck : r.cityCountry = (tupleOf r).key := by rw [hkc r hr]; rfl
      rw [hck, hp]
    rcases mapExcept_ok_of_forall hforall with ⟨l2, hl2⟩
    rw [hl2] at h
    cases h

/-- C9: the mapping built by `_get_coordinates` contains every record's
composite key, so the per-record dictionary lookup of the write-back never
fails — no load outcome ever carries the missing-key fault. -/
theorem load_missing_key_unreachable (remote : String → Except String GeoResponse)
    (data : List DataRow) :
    isMissingKeyResult (Location.load remote data) = false := by
  cases hd : data.head? with
  | none => simp [Location.load, hd, isMissingKeyResult]
  | some r0 =>
    cases ht : r0.latitude.isText with
    | false =>
      simp [Location.load, hd, ht, isMissingKeyResult]
    | true =>
      cases hup : Location.updateFile remote (data.map addDerived) with
      | ok rows2 =>
        simp [Location.load, hd, ht, hup, isMissingKeyResult]
      | error e =>
        have hkc : ∀ r ∈ data.map addDerived, r.cityCountry = LocRow.key r := by
          intro r hr
          rcases List.mem_map.mp hr with ⟨d, _, rfl⟩
          rfl
        have hsh := updateFile_error_shape hkc hup
        simp only [Location.load, hd, ht, if_true, hup]
        rcases hsh with rfl | rfl <;> rfl

/-- C3: for every composite key, when the remote lookup fails the mapping
assigns the raw-parsed pair of that key's first-seen row, and when it
succeeds the mapping assigns the remotely returned pair; either way, every
written row carrying that key receives that same pair. -/
theorem updateFile_resolution_policy
    (remote : String → Except String GeoResponse) (rows rows2 : List LocRow)
    (k : String) (r0 : LocRow)
    (hup : Location.updateFile remote rows = .ok rows2)
    (hfind : rows.find? (fun r => LocRow.key r == k) = some r0) :
    (Location.googleCoords (remote k) = none →
      ∃ la lo, Location.coordsVal r0.latitude = .ok la ∧
        Location.coordsVal r0.longitude = .ok lo ∧
        ∀ r2 ∈ rows2, r2.cityCountry = k →
          r2.latitude = .num la ∧ r2.longitude = .num lo) ∧
    (∀ p, Location.googleCoords (remote k) = some p →
      ∀ r2 ∈ rows2, r2.cityCountry = k →
        r2.latitude = .num p.1 ∧ r2.longitude = .num p.2) := by
  obtain ⟨m, hm, hmap⟩ := updateFile_ok_parts hup
  unfold Location.getCoordinates at hm
  have hp0 := List.find?_some hfind
  have hk0 : LocRow.key r0 = k := eq_of_beq hp0
  have hfind2 : (dropDupFirst (rows.map tupleOf)).find?
      (fun t => t.key == k) = some (tupleOf r0) := by
    rw [find?_dropDupFirst, List.find?_map]
    have hcomp : ((fun t : CityTuple => t.key == k) ∘ tupleOf) =
        (fun r : LocRow => LocRow.key r == k) := rfl
    rw [hcomp, hfind]
    rfl
  obtain ⟨p, hres, hlook⟩ :=
    getCoordsAux_find remote (dropDupFirst (rows.map tupleOf)) [] [] m k
      (tupleOf r0) hm rfl hfind2
  have hrows : ∀ p2 : ℚ × ℚ, lookupKey m k = some p2 →
      ∀ r2 ∈ rows2, r2.cityCountry = k →
        r2.latitude = .num p2.1 ∧ r2.longitude = .num p2.2 := by
    intro p2 hlk2 r2 hr2 hck
    obtain ⟨r, _, happ⟩ :=
      forall2_mem_right (mapExcept_ok_forall2 hmap) r2 hr2
    obtain ⟨_, _, _, _, _, hcc, la2, lo2, hlk, hlat, hlng⟩ := applyRow_ok happ
    rw [hcc] at hck
    rw [hck, hlk2] at hlk
    cases hlk
    exact ⟨hlat, hlng⟩
  have hkey : (tupleOf r0).key = k := hk0
  unfold resolveTuple at hres
  rw [hkey] at hres
  constructor
  · intro hg
    rw [hg] at hres
    cases hla : Location.coordsVal (tupleOf r0).lat with
    | error e =>
      rw [hla] at hres
      simp only [Bind.bind, Except.bind] at hres
      cases hres
    | ok la =>
      rw [hla] at hres
      simp only [Bind.bind, Except.bind] at hres
      cases hlo : Location.coordsVal (tupleOf r0).lng with
      | error e => rw [hlo] at hres; simp only [Bind.bind, Except.bind] at hres; cases hres
      | ok lo =>
        rw [hlo] at hres
        simp only [Bind.bind, Except.bind, pure, Except.pure] at hres
        cases hres
        exact ⟨la, lo, hla, hlo, hrows (la, lo) hlook⟩
  · intro p2 hg
    rw [hg] at hres
    cases hres
    exact hrows _ hlook

theorem updateFile_resolution_policy_witness :
    ∃ la lo, Location.coordsVal (addDerived demoLyon).latitude = .ok la ∧
      Location.coordsVal (addDerived demoLyon).longitude = .ok lo ∧
      ∀ r2 ∈ demoResolved, r2.cityCountry = "Lyon, France" →
        r2.latitude = .num la ∧ r2.longitude = .num lo :=
  (updateFile_resolution_policy demoRemote (demoData.map addDerived)
    demoResolved "Lyon, France" (addDerived demoLyon)
    (by decide) (by decide)).1 (by decide)

theorem load_written_eq {remote : String → Except String GeoResponse}
    {data : List DataRow} {w : List LocRow}
    (hw : (Location.load remote data).written = some w) :
    Location.load remote data = { result := .ok w, written := some w } ∧
    Location.updateFile remote (data.map addDerived) = .ok w := by
  cases hd : data.head? with
  | none =>
    have hl : Location.load remote data =
        { result := .error .emptyData, written := none } := by
      simp only [Location.load, hd]
    rw [hl] at hw
    exact nomatch hw
  | some r0 =>
    cases ht : r0.latitude.isText with
    | false =>
      have hl : Location.load remote data =
          { result := .ok (data.map addDerived), written := none } := by
        simp only [Location.load, hd, ht]
        rfl
      rw [hl] at hw
      exact nomatch hw
    | true =>
      cases hup : Location.updateFile remote (data.map addDerived) with
      | ok rows2 =>
        have hl : Location.load remote data =
            { result := .ok rows2, written := some rows2 } := by
          simp only [Location.load, hd, ht, if_true, hup]
        rw [hl] at hw
        cases hw
        exact ⟨hl, rfl⟩
      | error e =>
        have hl : Location.load remote data =
            { result := .error e, written := none } := by
          simp only [Location.load, hd, ht, if_true, hup]
        rw [hl] at hw
        exact nomatch hw

/-- C8: loading and resolution leave every original column unchanged except
the two coordinate columns: each written row keeps its place names,
timestamp and remaining original values, gains the derived year and
composite-key columns, and has both coordinate cells rewritten to numeric
form. -/
theorem load_frame_preservation (remote : String → Except String GeoResponse)
    (data : List DataRow) (w : List LocRow)
    (hw : (Location.load remote data).written = some w) :
    List.Forall₂ (fun (d : DataRow) (r2 : LocRow) =>
      r2.city = d.city ∧ r2.country = d.country ∧ r2.dt = d.dt ∧
      r2.other = d.other ∧ r2.year = yearOf d.dt ∧
      r2.cityCountry = d.city ++ ", " ++ d.country ∧
      (∃ a, r2.latitude = .num a) ∧ (∃ b, r2.longitude = .num b)) data w := by
  obtain ⟨-, hup⟩ := load_written_eq hw
  obtain ⟨m, hm, hmap⟩ := updateFile_ok_parts hup
  have h2 := mapExcept_ok_forall2 hmap
  rw [List.forall₂_map_left_iff] at h2
  refine List.Forall₂.imp ?_ h2
  intro d r2 hdr
  obtain ⟨hc, hco, hdt, hot, hy, hcc, la, lo, hlk, hlat, hlng⟩ := applyRow_ok hdr
  exact ⟨hc, hco, hdt, hot, hy, hcc, ⟨la, hlat⟩, ⟨lo, hlng⟩⟩

theorem load_frame_preservation_witness :
    List.Forall₂ (fun (d : DataRow) (r2 : LocRow) =>
      r2.city = d.city ∧ r2.country = d.country ∧ r2.dt = d.dt ∧
      r2.other = d.other ∧ r2.year = yearOf d.dt ∧
      r2.cityCountry = d.city ++ ", " ++ d.country ∧
      (∃ a, r2.latitude = .num a) ∧ (∃ b, r2.longitude = .num b))
      demoData demoResolved :=
  load_frame_preservation demoRemote demoData demoResolved (by decide)

/-- C7: resolution is idempotent — re-loading the dataset written by a
successful resolution pass detects numeric coordinates, skips resolution,
returns coordinate values identical to the first pass, and writes nothing. -/
theorem load_idempotent (remote remote2 : String → Except String GeoResponse)
    (data : List DataRow) (w : List LocRow)
    (hw : (Location.load remote data).written = some w) :
    Location.load remote2 (w.map LocRow.toData) =
      { result := .ok w, written := none } := by
  obtain ⟨-, hup⟩ := load_written_eq hw
  obtain ⟨m, hm, hmap⟩ := updateFile_ok_parts hup
  have h2 := mapExcept_ok_forall2 hmap
  rw [List.forall₂_map_left_iff] at h2
  have hprop : ∀ r2 ∈ w, (∃ a, r2.latitude = CoordVal.num a) ∧
      addDerived (LocRow.toData r2) = r2 := by
    intro r2 hr2
    obtain ⟨d, _, hdr⟩ := forall2_mem_right h2 r2 hr2
    obtain ⟨hc, hco, hdt, hot, hy, hcc, la, lo, hlk, hlat, hlng⟩ :=
      applyRow_ok hdr
    refine ⟨⟨la, hlat⟩, ?_⟩
    cases r2 with
    | mk c co dt2 lat2 lng2 ot y cc =>
      simp only [addDerived] at hy hcc
      simp only at hc hco hdt hot hy hcc
      simp only [addDerived, LocRow.toData, LocRow.mk.injEq, true_and,
        and_true]
      refine ⟨?_, ?_⟩
      · rw [hdt, hy]
        rfl
      · rw [hc, hco, hcc]
        rfl
  cases w with
  | nil =>
    exfalso
    have hdn : data = [] := List.forall₂_nil_right_iff.mp h2
    subst hdn
    simp [Location.load] at hw
  | cons w0 wrest =>
    obtain ⟨⟨a0, ha0⟩, -⟩ := hprop w0 (List.mem_cons_self w0 wrest)
    have hhead : ((w0 :: wrest).map LocRow.toData).head? =
        some (LocRow.toData w0) := rfl
    have htext : (LocRow.toData w0).latitude.isText = false := by
      show w0.latitude.isText = false
      rw [ha0]
      rfl
    have hl : Location.load remote2 ((w0 :: wrest).map LocRow.toData) =
        { result := .ok (((w0 :: wrest).map LocRow.toData).map addDerived),
          written := none } := by
      simp only [Location.load, hhead, htext]
      rfl
    rw [hl]
    have hmaps : (((w0 :: wrest).map LocRow.toData).map addDerived) =
        w0 :: wrest := by
      rw [List.map_map]
      have hcongr : (w0 :: wrest).map (addDerived ∘ LocRow.toData) =
          (w0 :: wrest).map id :=
        List.map_congr_left (fun r2 hr2 => (hprop r2 hr2).2)
      rw [hcongr, List.map_id]
    rw [hmaps]

theorem load_idempotent_witness :
    Location.load demoOffline (demoResolved.map LocRow.toData) =
      { result := .ok demoResolved, written := none } :=
  load_idempotent demoRemote demoOffline demoData demoResolved (by decide)
